import Mathlib

/-!
# holow_mcp — formal model of the request-processing core

A shallow embedding of the holow-mcp MCP server (Go sources under
`internal/server`, `internal/database`, `internal/circuit` and the tools
package).  Go strings are byte sequences (`List UInt8`); the byte-level
operations of the `strings` package and the rune-at-a-time loops of the
source are modelled with an explicit UTF-8 codec, so that byte-count
semantics (truncation at 64 KiB, `len`) and rune semantics (sanitisation
loops) are both faithful.
-/

namespace Holow

/-- A Go string: a sequence of bytes (Go strings are not guaranteed valid
UTF-8; `range` loops decode them on the fly). -/
abbrev GoStr := List UInt8

/-- UTF-8 encoding of a Unicode code point (Go `utf8.EncodeRune` /
`WriteRune`); valid scalar values only are produced by the decoder below. -/
def utf8EncodeRune (r : Nat) : GoStr :=
  if r < 0x80 then
    [UInt8.ofNat r]
  else if r < 0x800 then
    [UInt8.ofNat (0xC0 + r / 0x40), UInt8.ofNat (0x80 + r % 0x40)]
  else if r < 0x10000 then
    [UInt8.ofNat (0xE0 + r / 0x1000),
     UInt8.ofNat (0x80 + (r / 0x40) % 0x40),
     UInt8.ofNat (0x80 + r % 0x40)]
  else
    [UInt8.ofNat (0xF0 + r / 0x40000),
     UInt8.ofNat (0x80 + (r / 0x1000) % 0x40),
     UInt8.ofNat (0x80 + (r / 0x40) % 0x40),
     UInt8.ofNat (0x80 + r % 0x40)]

/-- UTF-8 bytes of a Lean string literal; used to write concrete Go strings. -/
def gostr (s : String) : GoStr :=
  (s.data.map (fun c => utf8EncodeRune c.toNat)).flatten

/-- Whether a byte is a UTF-8 continuation byte. -/
def isContB (b : UInt8) : Bool := 0x80 ≤ b.toNat && b.toNat ≤ 0xBF

/-- Decode a byte string into code points, as a Go `for _, r := range s`
loop observes them (`utf8.DecodeRune` semantics: overlong, surrogate and
out-of-range encodings are invalid; every invalid byte becomes U+FFFD,
advancing one byte). -/
def utf8Decode : GoStr → List Nat
  | [] => []
  | b :: rest =>
    let n0 := b.toNat
    if n0 < 0x80 then n0 :: utf8Decode rest
    else if 0xC2 ≤ n0 && n0 ≤ 0xDF then
      match rest with
      | b1 :: rest1 =>
        if isContB b1 then
          ((n0 - 0xC0) * 0x40 + (b1.toNat - 0x80)) :: utf8Decode rest1
        else 0xFFFD :: utf8Decode (b1 :: rest1)
      | [] => [0xFFFD]
    else if 0xE0 ≤ n0 && n0 ≤ 0xEF then
      match rest with
      | b1 :: b2 :: rest2 =>
        let ok1 :=
          if n0 = 0xE0 then 0xA0 ≤ b1.toNat && b1.toNat ≤ 0xBF
          else if n0 = 0xED then 0x80 ≤ b1.toNat && b1.toNat ≤ 0x9F
          else isContB b1
        if ok1 && isContB b2 then
          ((n0 - 0xE0) * 0x1000 + (b1.toNat - 0x80) * 0x40 + (b2.toNat - 0x80)) ::
            utf8Decode rest2
        else 0xFFFD :: utf8Decode (b1 :: b2 :: rest2)
      | [b1] => 0xFFFD :: utf8Decode [b1]
      | [] => [0xFFFD]
    else if 0xF0 ≤ n0 && n0 ≤ 0xF4 then
      match rest with
      | b1 :: b2 :: b3 :: rest3 =>
        let ok1 :=
          if n0 = 0xF0 then 0x90 ≤ b1.toNat && b1.toNat ≤ 0xBF
          else if n0 = 0xF4 then 0x80 ≤ b1.toNat && b1.toNat ≤ 0x8F
          else isContB b1
        if ok1 && isContB b2 && isContB b3 then
          ((n0 - 0xF0) * 0x40000 + (b1.toNat - 0x80) * 0x1000 +
            (b2.toNat - 0x80) * 0x40 + (b3.toNat - 0x80)) :: utf8Decode rest3
        else 0xFFFD :: utf8Decode (b1 :: b2 :: b3 :: rest3)
      | [b1, b2] => 0xFFFD :: utf8Decode [b1, b2]
      | [b1] => 0xFFFD :: utf8Decode [b1]
      | [] => [0xFFFD]
    else 0xFFFD :: utf8Decode rest

/-- `strings.HasPrefix`: does `s` start with `pat`? -/
def hasPrefixB : GoStr → GoStr → Bool
  | _, [] => true
  | [], _ :: _ => false
  | a :: s, b :: p => a == b && hasPrefixB s p

/-- `strings.Index`: byte offset of the first occurrence of `pat` in `s`
(`none` where Go returns `-1`). -/
def indexOfB : GoStr → GoStr → Option Nat
  | [], pat => if hasPrefixB [] pat then some 0 else none
  | a :: rest, pat =>
    if hasPrefixB (a :: rest) pat then some 0
    else (indexOfB rest pat).map (· + 1)

/-- `strings.Contains`. -/
def containsB (s pat : GoStr) : Bool := (indexOfB s pat).isSome

theorem hasPrefixB_length {s pat : GoStr} (h : hasPrefixB s pat = true) :
    pat.length ≤ s.length := by
  induction pat generalizing s with
  | nil => simp
  | cons b p ih =>
    cases s with
    | nil => simp [hasPrefixB] at h
    | cons a s =>
      simp only [hasPrefixB, Bool.and_eq_true] at h
      simpa using Nat.succ_le_succ (ih h.2)

theorem indexOfB_some_le {s pat : GoStr} {i : Nat}
    (h : indexOfB s pat = some i) : i + pat.length ≤ s.length := by
  induction s generalizing i with
  | nil =>
    simp only [indexOfB] at h
    split at h
    · rename_i hp
      cases h
      simpa using hasPrefixB_length hp
    · exact absurd h (by simp)
  | cons a s ih =>
    simp only [indexOfB] at h
    split at h
    · rename_i hp
      cases h
      simpa using hasPrefixB_length hp
    · simp only [Option.map_eq_some'] at h
      obtain ⟨j, hj, rfl⟩ := h
      have := ih hj
      simp only [List.length_cons]
      omega

/-- Non-overlapping left-to-right scan of `strings.ReplaceAll` for a
non-empty pattern.  The `fuel` argument only makes the recursion
structural: every step consumes at least one byte of `s`, so `s.length`
steps always suffice and the zero-fuel branch is never reached from
`replaceAllB`. -/
def replaceScan (pat rep : GoStr) : Nat → GoStr → GoStr
  | _, [] => []
  | 0, s => s
  | fuel + 1, a :: rest =>
    if hasPrefixB (a :: rest) pat then
      rep ++ replaceScan pat rep fuel ((a :: rest).drop pat.length)
    else
      a :: replaceScan pat rep fuel rest

/-- `strings.ReplaceAll s pat rep`.  The source only ever calls it with a
non-empty pattern; with an empty pattern Go would interleave `rep` between
runes, a case that never arises here. -/
def replaceAllB (s pat rep : GoStr) : GoStr :=
  match pat with
  | [] => s
  | _ :: _ => replaceScan pat rep s.length s

/-- ASCII lowering of one byte.  `strings.ToLower` lowers full Unicode; the
only patterns searched in lowered text in the source are ASCII, for which
byte-wise lowering agrees. -/
def toLowerByte (b : UInt8) : UInt8 :=
  if 65 ≤ b.toNat && b.toNat ≤ 90 then b + 32 else b

def toLowerB (s : GoStr) : GoStr := s.map toLowerByte

/-- ASCII raising of one byte (for the `SELECT` prefix test). -/
def toUpperByte (b : UInt8) : UInt8 :=
  if 97 ≤ b.toNat && b.toNat ≤ 122 then b - 32 else b

def toUpperB (s : GoStr) : GoStr := s.map toUpperByte

/-- ASCII whitespace, the fragment of `unicode.IsSpace` relevant to SQL
text (`strings.TrimSpace` also trims non-ASCII Unicode spaces, which do
not occur in the statements handled here). -/
def isSpaceByte (b : UInt8) : Bool :=
  b == 32 || b == 9 || b == 10 || b == 11 || b == 12 || b == 13

def trimSpaceB (s : GoStr) : GoStr :=
  ((s.dropWhile isSpaceByte).reverse.dropWhile isSpaceByte).reverse

/-! ## Template substitution (server.go: sanitizeSQLValue, escapeJSONValue,
validateParamKey, isInJavaScriptContext, substituteParams) -/

/-- server.go `sanitizeSQLValue`: strip NUL bytes, double single quotes,
then keep only newline, tab, carriage return, printable ASCII, and runes
≥ 128 (the rune loop over the byte string). -/
def sanitizeSQLValue (value : GoStr) : GoStr :=
  let value := replaceAllB value [0] []
  let value := replaceAllB value [39] [39, 39]
  (((utf8Decode value).filter fun r =>
      r == 10 || r == 9 || r == 13 || (decide (32 ≤ r) && decide (r < 127)) ||
        decide (128 ≤ r)).map utf8EncodeRune).flatten

/-- Lowercase hex digit, as produced by `fmt.Sprintf("%04x", _)`. -/
def hexDigit (n : Nat) : UInt8 :=
  if n < 10 then UInt8.ofNat (48 + n) else UInt8.ofNat (87 + n)

/-- server.go `escapeJSONValue`, one rune: backslash, double quote, newline,
carriage return are escaped; NUL is dropped; other control runes become a
lowercase `\uXXXX` escape; everything else passes through. -/
def escapeJSONRune (r : Nat) : GoStr :=
  if r = 92 then [92, 92]
  else if r = 34 then [92, 34]
  else if r = 10 then [92, 110]
  else if r = 13 then [92, 114]
  else if r = 9 then [92, 116]
  else if r = 0 then []
  else if r < 32 then
    [92, 117, hexDigit (r / 4096 % 16), hexDigit (r / 256 % 16),
     hexDigit (r / 16 % 16), hexDigit (r % 16)]
  else utf8EncodeRune r

/-- server.go `escapeJSONValue`. -/
def escapeJSONValue (value : GoStr) : GoStr :=
  ((utf8Decode value).map escapeJSONRune).flatten

def isKeyStartRune (r : Nat) : Bool :=
  (decide (97 ≤ r) && decide (r ≤ 122)) || (decide (65 ≤ r) && decide (r ≤ 90)) || r == 95

def isKeyRune (r : Nat) : Bool :=
  isKeyStartRune r || (decide (48 ≤ r) && decide (r ≤ 57))

/-- server.go `validateParamKey`: length (in bytes) between 1 and 64, first
rune a letter or underscore, the rest letters, digits or underscores. -/
def validateParamKey (key : GoStr) : Bool :=
  if key.length == 0 || decide (64 < key.length) then false
  else
    match utf8Decode key with
    | [] => false
    | r :: rs => isKeyStartRune r && rs.all isKeyRune

/-- The JavaScript/JSON context markers of server.go `isInJavaScriptContext`
(searched lowercased). -/
def jsIndicators : List GoStr :=
  [gostr "expression", gostr "document.", gostr "window.",
   gostr "json.stringify", gostr ".queryselector", gostr ".click()",
   gostr ".focus()", gostr ".value", gostr "innertext", gostr "innerhtml"]

/-- server.go `isInJavaScriptContext`: look at the up-to-200 bytes before the
FIRST occurrence of the placeholder in the template, lowercased, for any
marker. -/
def isInJavaScriptContext (template placeholder : GoStr) : Bool :=
  match indexOfB template placeholder with
  | none => false
  | some idx =>
    let lookback := min 200 idx
    let context := toLowerB ((template.drop (idx - lookback)).take lookback)
    jsIndicators.any fun ind => containsB context ind

/-- A coerced argument value, as server.go `substituteParams` receives it
from JSON.  JSON numbers arrive in Go as `float64`; only integral numeric
literals occur in the modelled inputs, and `fmt.Sprintf("%v", _)` renders
those exactly as `Int.repr` does.  Composite (array/object) values, which
the source serialises with `json.Marshal`, carry their serialised form. -/
inductive GoValue
  | vStr (s : GoStr)
  | vNum (n : Int)
  | vBool (b : Bool)
  | vNull
  | vJSON (s : GoStr)
deriving DecidableEq, Repr

/-- The value-coercion switch of server.go `substituteParams`. -/
def coerceValue : GoValue → GoStr
  | .vStr s => s
  | .vNum n => gostr (toString n)
  | .vBool true => gostr "1"
  | .vBool false => gostr "0"
  | .vNull => []
  | .vJSON s => s

def lbraceB : UInt8 := 123
def rbraceB : UInt8 := 125

def placeholderOf (key : GoStr) : GoStr :=
  [lbraceB, lbraceB] ++ key ++ [rbraceB, rbraceB]

/-- One iteration of the `for key, value := range args` loop of server.go
`substituteParams`: skip invalid keys, coerce, truncate to 65536 bytes,
escape for the JavaScript context when the (first occurrence of the)
placeholder sits in one, always apply SQL escaping, then replace every
occurrence of the placeholder. -/
def substituteOne (result : GoStr) (key : GoStr) (value : GoValue) : GoStr :=
  if !validateParamKey key then result
  else
    let placeholder := placeholderOf key
    let strValue := coerceValue value
    let strValue := strValue.take 65536
    let strValue :=
      if isInJavaScriptContext result placeholder then escapeJSONValue strValue
      else strValue
    let strValue := sanitizeSQLValue strValue
    replaceAllB result placeholder strValue

/-- Loop body of the final sweep of server.go `substituteParams`.  The
`fuel` argument only makes the recursion structural: every iteration
removes at least two bytes, so `result.length` steps always suffice and
the zero-fuel branch is never reached from `sweepPlaceholders`. -/
def sweepLoop : Nat → GoStr → GoStr
  | 0, result => result
  | fuel + 1, result =>
    match indexOfB result [lbraceB, lbraceB] with
    | none => result
    | some start =>
      match indexOfB (result.drop start) [rbraceB, rbraceB] with
      | none => result
      | some e =>
        sweepLoop fuel (result.take start ++ (result.drop start).drop (e + 2))

/-- The final sweep of server.go `substituteParams`: repeatedly erase the
text from the first remaining `\x7b\x7b` through the next `\x7d\x7d`. -/
def sweepPlaceholders (result : GoStr) : GoStr :=
  sweepLoop result.length result

/-- server.go `substituteParams`.  The source iterates a Go map, whose
order is unspecified; the model takes the arguments as an explicit list and
folds in list order (all the properties proved below use a single key or
are order-independent). -/
def substituteParams (template : GoStr) (args : List (GoStr × GoValue)) : GoStr :=
  sweepPlaceholders
    (args.foldl (fun result kv => substituteOne result kv.1 kv.2) template)

/-- Whether a complete placeholder (`\x7b\x7b` later followed by `\x7d\x7d`)
remains in a string: the loop condition of the final sweep. -/
def hasCompletePlaceholder (s : GoStr) : Bool :=
  match indexOfB s [lbraceB, lbraceB] with
  | none => false
  | some start => (indexOfB (s.drop start) [rbraceB, rbraceB]).isSome

theorem sweepLoop_no_placeholder :
    ∀ (fuel : Nat) (s : GoStr), s.length ≤ fuel →
      hasCompletePlaceholder (sweepLoop fuel s) = false := by
  intro fuel
  induction fuel with
  | zero =>
    intro s hs
    have : s = [] := List.eq_nil_of_length_eq_zero (by omega)
    subst this
    decide
  | succ fuel ih =>
    intro s hs
    rw [sweepLoop]
    split
    · rename_i h1
      simp [hasCompletePlaceholder, h1]
    · rename_i start h1
      split
      · rename_i h2
        simp [hasCompletePlaceholder, h1, h2]
      · rename_i e h2
        apply ih
        have h3 := indexOfB_some_le h1
        simp only [List.length_cons, List.length_nil] at h3
        simp only [List.length_append, List.length_take, List.length_drop]
        omega

theorem sweep_no_placeholder (s : GoStr) :
    hasCompletePlaceholder (sweepPlaceholders s) = false :=
  sweepLoop_no_placeholder s.length s le_rfl

/-- The escaping pipeline applied to a value once the JavaScript-context
decision `jsCtx` has been taken for its key. -/
def escapePipeline (jsCtx : Bool) (v : GoStr) : GoStr :=
  if jsCtx then sanitizeSQLValue (escapeJSONValue v) else sanitizeSQLValue v

/-- C7 counterexample.  The claim says escaping is chosen *per placeholder
occurrence* and that outside a JavaScript context the value receives only
SQL escaping with "null bytes and non-tab control characters stripped".
Both parts fail on the code:
* in `SELECT '\x7b\x7bk\x7d\x7dʼ; SELECT json_object('expression', '\x7b\x7bk\x7d\x7dʼ)`
  the second occurrence of the placeholder is preceded (within 200 bytes)
  by the marker `expression`, so per the claim its value `a"b` must be
  JSON-escaped to `a\"b`; the code takes the decision once per key, from
  the FIRST occurrence (whose lookback holds no marker), and substitutes
  the plain `a"b` at both occurrences;
* in `SELECT '\x7b\x7bk\x7d\x7dʼ` with value `a\nb` the claim's SQL escaping strips
  the newline (a non-tab control character), yielding `SELECT 'ab'`; the
  code keeps newlines (its rune filter admits `\n`, `\t` and `\r`). -/
theorem C7_perOccurrence_counterexample :
    substituteParams
        (gostr "SELECT '\x7b\x7bk\x7d\x7d'; SELECT json_object('expression', '\x7b\x7bk\x7d\x7d')")
        [(gostr "k", .vStr (gostr "a\"b"))]
      = gostr "SELECT 'a\"b'; SELECT json_object('expression', 'a\"b')" ∧
    substituteParams
        (gostr "SELECT '\x7b\x7bk\x7d\x7d'; SELECT json_object('expression', '\x7b\x7bk\x7d\x7d')")
        [(gostr "k", .vStr (gostr "a\"b"))]
      ≠ gostr "SELECT 'a\"b'; SELECT json_object('expression', 'a\\\"b')" ∧
    substituteParams (gostr "SELECT '\x7b\x7bk\x7d\x7d'")
        [(gostr "k", .vStr (gostr "a\nb"))]
      = gostr "SELECT 'a\nb'" ∧
    gostr "SELECT 'a\nb'" ≠ gostr "SELECT 'ab'" := by
  refine ⟨by decide, by decide, by decide, by decide⟩

/-- C7 (amended): context-aware escaping is applied per placeholder *key*:
for a single valid key the rendered template is the original with every
occurrence of `\x7b\x7bkey\x7d\x7d` replaced by the escaped, 64 KiB-truncated value,
where the JavaScript-context decision is taken once, from the up-to-200-byte
lookback before the first occurrence of the placeholder (markers including
`.click()`); in a JavaScript context the value is JSON-string escaped and
then SQL-escaped, otherwise only SQL-escaped (single quote doubled, null
bytes removed, control characters other than tab, newline and carriage
return stripped), followed by the final sweep of surviving placeholders.
The concrete conjuncts exercise the JS path (quote becomes `\"`), the plain
path (quote doubled, newline kept), and the `.click()` marker. -/
theorem C7_contextEscaping_perKey :
    (∀ (t k v : GoStr), validateParamKey k = true →
      substituteParams t [(k, .vStr v)] =
        sweepPlaceholders (replaceAllB t (placeholderOf k)
          (escapePipeline (isInJavaScriptContext t (placeholderOf k))
            (v.take 65536)))) ∧
    substituteParams (gostr "SELECT json_object('expression', '\x7b\x7bk\x7d\x7d')")
        [(gostr "k", .vStr (gostr "a\"b"))]
      = gostr "SELECT json_object('expression', 'a\\\"b')" ∧
    substituteParams (gostr "SELECT '\x7b\x7bk\x7d\x7d'")
        [(gostr "k", .vStr (gostr "a'b\nc"))]
      = gostr "SELECT 'a''b\nc'" ∧
    substituteParams (gostr "el.click() '\x7b\x7bk\x7d\x7d'")
        [(gostr "k", .vStr (gostr "a\"b"))]
      = gostr "el.click() 'a\\\"b'" := by
  refine ⟨fun t k v h => ?_, by decide, by decide, by decide⟩
  simp only [substituteParams, List.foldl, substituteOne, h, Bool.not_true,
    Bool.false_eq_true, if_false, coerceValue]
  cases hc : isInJavaScriptContext t (placeholderOf k) <;>
    simp [escapePipeline, hc]

/-- Witness for `C7_contextEscaping_perKey` at a concrete key, template and
value. -/
theorem C7_contextEscaping_perKey_witness :
    substituteParams (gostr "Q \x7b\x7bk\x7d\x7d") [(gostr "k", .vStr (gostr "z"))] =
      sweepPlaceholders (replaceAllB (gostr "Q \x7b\x7bk\x7d\x7d")
        (placeholderOf (gostr "k"))
        (escapePipeline
          (isInJavaScriptContext (gostr "Q \x7b\x7bk\x7d\x7d") (placeholderOf (gostr "k")))
          ((gostr "z").take 65536))) :=
  C7_contextEscaping_perKey.1 _ _ _ (by decide)

/-- C8: (1) the coerced value is truncated to its first 65536 bytes before
escaping and substitution — the rendered output only depends on that prefix,
and when the value exceeds 65536 bytes the prefix is exactly 65536 bytes
long; (2) an argument whose key fails the identifier check is silently
dropped (only the final sweep acts); (3) the final sweep leaves no complete
`\x7b\x7b...\x7d\x7d` placeholder behind, erasing surviving ones (concrete instance:
an unsupplied placeholder is replaced with the empty string). -/
theorem C8_truncation_keys_sweep :
    (∀ (t k : GoStr) (v : GoValue),
      substituteParams t [(k, v)] =
        substituteParams t [(k, .vStr ((coerceValue v).take 65536))]) ∧
    (∀ v : GoValue, 65536 < (coerceValue v).length →
      ((coerceValue v).take 65536).length = 65536) ∧
    (∀ (t k : GoStr) (v : GoValue), validateParamKey k = false →
      substituteParams t [(k, v)] = sweepPlaceholders t) ∧
    (∀ s : GoStr, hasCompletePlaceholder (sweepPlaceholders s) = false) ∧
    substituteParams (gostr "A \x7b\x7bmissing\x7d\x7d B") [] = gostr "A  B" := by
  refine ⟨fun t k v => ?_, fun v h => ?_, fun t k v h => ?_,
    sweep_no_placeholder, by decide⟩
  · simp [substituteParams, substituteOne, coerceValue, List.take_take]
  · simp [List.length_take]
    omega
  · simp [substituteParams, substituteOne, h]

/-- Witness for `C8_truncation_keys_sweep`: a 65537-byte value is cut to
exactly 65536 bytes, and a key starting with a digit is dropped. -/
theorem C8_truncation_keys_sweep_witness :
    ((coerceValue (.vStr (List.replicate 65537 97))).take 65536).length = 65536 ∧
    substituteParams (gostr "T") [(gostr "9k", .vStr (gostr "v"))] =
      sweepPlaceholders (gostr "T") :=
  ⟨C8_truncation_keys_sweep.2.1 _ (by norm_num [coerceValue, List.length_replicate]),
   C8_truncation_keys_sweep.2.2.1 _ _ _ (by decide)⟩

/-! ## Circuit breaker (circuit package: Breaker, Manager.Get, CanExecute,
RecordSuccess, RecordFailure) -/

/-- The three breaker states of the circuit package. -/
inductive BState
  | stClosed
  | stOpen
  | stHalfOpen
deriving DecidableEq, Repr

/-- circuit.Breaker.  Timestamps are integer Unix seconds; the database
persistence calls (`execOrLog`) only mirror these fields and are not
modelled separately. -/
structure Breaker where
  name : String
  state : BState
  failureCount : Nat
  successCount : Nat
  failureThreshold : Nat
  successThreshold : Nat
  timeoutSeconds : Nat
  lastStateChange : Nat
  halfOpenMaxCalls : Nat
  halfOpenCalls : Nat
deriving DecidableEq, Repr

/-- circuit.Manager.Get: a fresh breaker with the default thresholds
(failure 5, success 3, timeout 60 s, half-open max 3; `halfOpenCalls` is
the Go zero value). -/
def defaultBreaker (name : String) (now : Nat) : Breaker :=
  ⟨name, .stClosed, 0, 0, 5, 3, 60, now, 3, 0⟩

/-- circuit.Breaker.CanExecute.  `time.Since(lastStateChange) >
timeoutSeconds` becomes `timeoutSeconds < now - lastStateChange` on
truncated Nat subtraction (a clock running backwards gives a non-positive
duration in Go and 0 here, rejecting in both). -/
def canExecute (b : Breaker) (now : Nat) : Bool × Breaker :=
  match b.state with
  | .stClosed => (true, b)
  | .stOpen =>
    if b.timeoutSeconds < now - b.lastStateChange then
      (true, { b with state := .stHalfOpen, successCount := 0,
                      halfOpenCalls := 0, lastStateChange := now })
    else (false, b)
  | .stHalfOpen =>
    if b.halfOpenMaxCalls ≤ b.halfOpenCalls then (false, b)
    else (true, { b with halfOpenCalls := b.halfOpenCalls + 1 })

/-- circuit.Breaker.RecordSuccess. -/
def recordSuccess (b : Breaker) (now : Nat) : Breaker :=
  match b.state with
  | .stClosed => { b with failureCount := 0 }
  | .stHalfOpen =>
    if b.successThreshold ≤ b.successCount + 1 then
      { b with state := .stClosed, failureCount := 0, successCount := 0,
               lastStateChange := now }
    else { b with successCount := b.successCount + 1 }
  | .stOpen => b

/-- circuit.Breaker.RecordFailure. -/
def recordFailure (b : Breaker) (now : Nat) : Breaker :=
  match b.state with
  | .stClosed =>
    if b.failureThreshold ≤ b.failureCount + 1 then
      { b with state := .stOpen, failureCount := b.failureCount + 1,
               lastStateChange := now }
    else { b with failureCount := b.failureCount + 1 }
  | .stHalfOpen =>
    { b with state := .stOpen, successCount := 0, lastStateChange := now }
  | .stOpen => b

/-- `k` consecutive failures. -/
def applyFailures (b : Breaker) (now : Nat) : Nat → Breaker
  | 0 => b
  | k + 1 => recordFailure (applyFailures b now k) now

/-- `k` consecutive successes. -/
def applySuccesses (b : Breaker) (now : Nat) : Nat → Breaker
  | 0 => b
  | k + 1 => recordSuccess (applySuccesses b now k) now

/-- `n` consecutive admission checks, counting how many were admitted. -/
def canExecuteRun (b : Breaker) (now : Nat) : Nat → Nat × Breaker
  | 0 => (0, b)
  | n + 1 =>
    let p := canExecute b now
    let q := canExecuteRun p.2 now n
    ((if p.1 then 1 else 0) + q.1, q.2)

theorem recordSuccess_le_threshold (b : Breaker) (now : Nat)
    (h : b.successCount ≤ b.successThreshold) :
    (recordSuccess b now).successCount ≤ (recordSuccess b now).successThreshold := by
  obtain ⟨nm, st, fc, sc, ft, sth, ts, lc, mx, hc⟩ := b
  cases st
  · exact h
  · exact h
  · simp only [recordSuccess] at *
    split
    · simp
    · simp at *
      omega

theorem applySuccesses_le_threshold (b : Breaker) (now k : Nat)
    (h : b.successCount ≤ b.successThreshold) :
    (applySuccesses b now k).successCount ≤
      (applySuccesses b now k).successThreshold := by
  induction k with
  | zero => exact h
  | succ k ih => exact recordSuccess_le_threshold _ _ ih

theorem recordSuccess_threshold_eq (b : Breaker) (now : Nat) :
    (recordSuccess b now).successThreshold = b.successThreshold := by
  obtain ⟨nm, st, fc, sc, ft, sth, ts, lc, mx, hc⟩ := b
  cases st
  · rfl
  · rfl
  · simp only [recordSuccess]
    split <;> rfl

theorem applySuccesses_threshold_eq (b : Breaker) (now k : Nat) :
    (applySuccesses b now k).successThreshold = b.successThreshold := by
  induction k with
  | zero => rfl
  | succ k ih => rw [applySuccesses, recordSuccess_threshold_eq, ih]

theorem canExecuteRun_halfOpen_bound (now : Nat) :
    ∀ (n : Nat) (b : Breaker), b.state = .stHalfOpen →
      (canExecuteRun b now n).1 + b.halfOpenCalls ≤ b.halfOpenMaxCalls ∨
        (canExecuteRun b now n).1 = 0 := by
  intro n
  induction n with
  | zero => intro b _; right; rfl
  | succ n ih =>
    rintro ⟨nm, st, fc, sc, ft, sth, ts, lc, mx, hc⟩ hb
    cases st
    · exact absurd hb (by simp)
    · exact absurd hb (by simp)
    · rw [canExecuteRun]
      simp only [canExecute]
      by_cases hle : mx ≤ hc
      · simp only [if_pos hle]
        rcases ih ⟨nm, .stHalfOpen, fc, sc, ft, sth, ts, lc, mx, hc⟩ rfl with h | h
        · left
          simpa using h
        · right
          simpa using h
      · simp only [if_neg hle]
        rcases ih ⟨nm, .stHalfOpen, fc, sc, ft, sth, ts, lc, mx, hc + 1⟩ rfl
          with h | h <;>
        · left
          simp at h ⊢
          omega

/-- C3: the per-tool breaker follows the closed/open/half-open machine of
the circuit package, with the source's defaults.
1. defaults are failure 5 / success 3 / timeout 60 / half-open max 3;
2. from a fresh (Closed) breaker, `k < 5` failures leave it Closed with
   failure count `k`, and the 5th failure opens it, stamping the change;
3. Open rejects every call while `now - lastStateChange ≤ timeout` and
   on the next call after the timeout moves to Half-Open with the success
   count (and half-open call count) reset;
4. in Half-Open at most `halfOpenMaxCalls - halfOpenCalls` further calls
   are admitted, whatever the number of attempts;
5. a success in Half-Open that reaches the success threshold closes the
   breaker and clears both counters;
6. the success count visible after `k` successes never exceeds the
   success threshold;
7. a single failure in Half-Open reopens the breaker. -/
theorem C3_breaker_state_machine :
    (∀ name t0, defaultBreaker name t0 =
      ⟨name, .stClosed, 0, 0, 5, 3, 60, t0, 3, 0⟩) ∧
    (∀ name t0 t k, k < 5 →
      (applyFailures (defaultBreaker name t0) t k).state = .stClosed ∧
      (applyFailures (defaultBreaker name t0) t k).failureCount = k) ∧
    (∀ name t0 t, (applyFailures (defaultBreaker name t0) t 5).state = .stOpen ∧
      (applyFailures (defaultBreaker name t0) t 5).lastStateChange = t) ∧
    (∀ b now, b.state = .stOpen →
      (now - b.lastStateChange ≤ b.timeoutSeconds → canExecute b now = (false, b)) ∧
      (b.timeoutSeconds < now - b.lastStateChange →
        canExecute b now = (true, { b with state := .stHalfOpen,
                                           successCount := 0,
                                           halfOpenCalls := 0,
                                           lastStateChange := now }))) ∧
    (∀ b now n, b.state = .stHalfOpen →
      (canExecuteRun b now n).1 + b.halfOpenCalls ≤ b.halfOpenMaxCalls ∨
        (canExecuteRun b now n).1 = 0) ∧
    (∀ b now, b.state = .stHalfOpen → b.successThreshold ≤ b.successCount + 1 →
      recordSuccess b now = { b with state := .stClosed,
                                     failureCount := 0,
                                     successCount := 0,
                                     lastStateChange := now }) ∧
    (∀ b now k, b.successCount ≤ b.successThreshold →
      (applySuccesses b now k).successCount ≤ b.successThreshold) ∧
    (∀ b now, b.state = .stHalfOpen →
      recordFailure b now = { b with state := .stOpen,
                                     successCount := 0,
                                     lastStateChange := now }) := by
  refine ⟨fun name t0 => rfl, fun name t0 t k hk => ?_, fun name t0 t => ?_,
    fun b now hb => ?_, fun b now n hb => canExecuteRun_halfOpen_bound now n b hb,
    fun b now hb hs => ?_, fun b now k h => ?_, fun b now hb => ?_⟩
  · interval_cases k <;>
      simp [applyFailures, recordFailure, defaultBreaker]
  · simp [applyFailures, recordFailure, defaultBreaker]
  · obtain ⟨nm, st, fc, sc, ft, sth, ts, lc, mx, hc⟩ := b
    subst hb
    constructor
    · intro ht
      simp only [canExecute]
      rw [if_neg (by simpa using Nat.not_lt.mpr ht)]
    · intro ht
      simp only [canExecute]
      rw [if_pos (by simpa using ht)]
  · obtain ⟨nm, st, fc, sc, ft, sth, ts, lc, mx, hc⟩ := b
    subst hb
    simp only [recordSuccess]
    rw [if_pos (by simpa using hs)]
  · have := applySuccesses_le_threshold b now k h
    rwa [applySuccesses_threshold_eq] at this
  · obtain ⟨nm, st, fc, sc, ft, sth, ts, lc, mx, hc⟩ := b
    subst hb
    simp only [recordFailure]

/-- Witness for `C3_breaker_state_machine` on a concrete breaker: four
failures keep it closed, the fifth opens it; an open breaker rejects
within the window and half-opens after it; three half-open successes
close it. -/
theorem C3_breaker_state_machine_witness :
    (applyFailures (defaultBreaker "t" 100) 110 4).state = .stClosed ∧
    (applyFailures (defaultBreaker "t" 100) 110 5).state = .stOpen ∧
    canExecute (applyFailures (defaultBreaker "t" 100) 110 5) 150 =
      (false, applyFailures (defaultBreaker "t" 100) 110 5) ∧
    canExecute (applyFailures (defaultBreaker "t" 100) 110 5) 171 =
      (true, { (applyFailures (defaultBreaker "t" 100) 110 5) with
        state := .stHalfOpen, successCount := 0, halfOpenCalls := 0,
        lastStateChange := 171 }) ∧
    ((canExecuteRun ⟨"t", .stHalfOpen, 5, 0, 5, 3, 60, 171, 3, 0⟩ 172 7).1 + 0 ≤ 3 ∨
      (canExecuteRun ⟨"t", .stHalfOpen, 5, 0, 5, 3, 60, 171, 3, 0⟩ 172 7).1 = 0) := by
  obtain ⟨-, c2, c3, c4, c5, -, -, -⟩ := C3_breaker_state_machine
  exact ⟨(c2 "t" 100 110 4 (by norm_num)).1, (c3 "t" 100 110).1,
    (c4 _ 150 (by decide)).1 (by decide), (c4 _ 171 (by decide)).2 (by decide),
    c5 ⟨"t", .stHalfOpen, 5, 0, 5, 3, 60, 171, 3, 0⟩ 172 7 rfl⟩

/-! ## Idempotency ledger (db.go: CheckProcessed, MarkProcessed; the
processed_log table of the execution shard) -/

/-- A row of `processed_log` (columns of db.go `MarkProcessed`). -/
structure ProcessedEntry where
  hash : String
  requestID : String
  toolName : String
  status : String
  resultHash : String
  processingTimeMs : Int
deriving DecidableEq, Repr

/-- An INSERT into `processed_log`.  The lifecycle-execution schema
declares `hash TEXT PRIMARY KEY` on this table, so an INSERT with a
duplicate hash is rejected by the primary key and leaves the table
unchanged (the returned flag is the success of the insert). -/
def insertProcessedLog (log : List ProcessedEntry) (e : ProcessedEntry) :
    List ProcessedEntry × Bool :=
  if log.any (fun r => r.hash == e.hash) then (log, false) else (log ++ [e], true)

/-- db.go `Manager.MarkProcessed`: a plain INSERT into processed_log.
SQLite serialises concurrent writers, so any interleaving of concurrent
submissions is one sequence of these inserts. -/
def markProcessed (log : List ProcessedEntry)
    (hash requestID toolName status resultHash : String)
    (processingTimeMs : Int) : List ProcessedEntry × Bool :=
  insertProcessedLog log ⟨hash, requestID, toolName, status, resultHash, processingTimeMs⟩

/-- db.go `Manager.CheckProcessed`: does a row with this hash exist? -/
def checkProcessed (log : List ProcessedEntry) (hash : String) : Bool :=
  log.any (fun r => r.hash == hash)

/-- Number of processed_log rows carrying a given fingerprint. -/
def rowsWithHash (log : List ProcessedEntry) (h : String) : Nat :=
  log.countP (fun r => r.hash == h)

theorem insertProcessedLog_atMostOne (log : List ProcessedEntry)
    (e : ProcessedEntry) (h : String) (hl : rowsWithHash log h ≤ 1) :
    rowsWithHash (insertProcessedLog log e).1 h ≤ 1 := by
  rw [insertProcessedLog]
  split
  · exact hl
  · rename_i hnone
    simp only [List.any_eq_true, not_exists, not_and, Bool.not_eq_true] at hnone
    rw [rowsWithHash, List.countP_append]
    by_cases he : e.hash = h
    · have hz : List.countP (fun r => r.hash == h) log = 0 := by
        rw [List.countP_eq_zero]
        intro r hr
        have := hnone r hr
        subst he
        simpa using this
      simp [hz, List.countP_cons, he]
    · have h1 : List.countP (fun r => r.hash == h) [e] = 0 := by
        simp [List.countP_cons, he]
      rw [h1]
      simpa [rowsWithHash] using hl

/-- Replay an arbitrary sequence of MarkProcessed insertions. -/
def runInserts (log : List ProcessedEntry) (subs : List ProcessedEntry) :
    List ProcessedEntry :=
  subs.foldl (fun l e => (insertProcessedLog l e).1) log

theorem runInserts_atMostOne (subs : List ProcessedEntry)
    (log : List ProcessedEntry) (h : String) (hl : rowsWithHash log h ≤ 1) :
    rowsWithHash (runInserts log subs) h ≤ 1 := by
  induction subs generalizing log with
  | nil => exact hl
  | cons e subs ih =>
    exact ih _ (insertProcessedLog_atMostOne log e h hl)

/-- C1: for every fingerprint, `processed_log` holds at most one row after
any sequence of submissions (SQLite serialises the concurrent inserts, so
every interleaving is such a sequence): starting from an empty ledger, any
number of `MarkProcessed` inserts — duplicates rejected by the primary
key — leaves at most one row per hash; moreover a duplicate insert is
rejected outright, leaving the table unchanged, and `CheckProcessed`
observes an inserted fingerprint (the insert is the commit point). -/
theorem C1_processedLog_atMostOnePerFingerprint :
    (∀ (subs : List ProcessedEntry) (h : String),
      rowsWithHash (runInserts [] subs) h ≤ 1) ∧
    (∀ (log : List ProcessedEntry) (e : ProcessedEntry),
      checkProcessed log e.hash = true → insertProcessedLog log e = (log, false)) ∧
    (∀ (log : List ProcessedEntry) (e : ProcessedEntry),
      checkProcessed (insertProcessedLog log e).1 e.hash = true) := by
  refine ⟨fun subs h => runInserts_atMostOne subs [] h (by simp [rowsWithHash]),
    fun log e hc => ?_, fun log e => ?_⟩
  · rw [insertProcessedLog, if_pos]
    exact hc
  · rw [insertProcessedLog]
    split
    · assumption
    · simp [checkProcessed]

/-- Witness for `C1_processedLog_atMostOnePerFingerprint`: inserting the
same fingerprint twice is rejected the second time. -/
theorem C1_processedLog_atMostOnePerFingerprint_witness :
    insertProcessedLog
        [⟨"ff00", "1", "tools/call", "success", "ab", 3⟩]
        ⟨"ff00", "2", "tools/call", "failed", "", 1⟩ =
      ([⟨"ff00", "1", "tools/call", "success", "ab", 3⟩], false) :=
  C1_processedLog_atMostOnePerFingerprint.2.1 _ _ (by decide)

/-! ## Retry queue and dead letter (server.go: AddRetryJob,
ProcessRetryQueue) -/

/-- A `retry_queue` row, with the columns server.go reads and writes. -/
structure RetryRow where
  id : Nat
  requestID : String
  toolName : String
  paramsJSON : String
  attemptNumber : Nat
  maxAttempts : Nat
  backoffSeconds : Nat
  nextRetryAt : Nat
  status : String
  lastError : String
deriving DecidableEq, Repr

/-- A `dead_letter_queue` row, with the columns of the INSERT in
server.go `ProcessRetryQueue`. -/
structure DeadLetterRow where
  requestID : String
  toolName : String
  paramsJSON : String
  errorMessage : String
  attempts : Nat
  firstAttemptAt : Nat
  lastAttemptAt : Nat
deriving DecidableEq, Repr

/-- The retry machinery's durable state: the execution-shard retry queue
and the output-shard dead-letter queue. -/
structure RetryState where
  queue : List RetryRow
  deadLetter : List DeadLetterRow
deriving DecidableEq, Repr

/-- server.go `AddRetryJob`: INSERT a row with `next_retry_at = now + 2`
and `backoff_seconds = 2`.  The columns the INSERT omits take the
defaults of the `retry_queue` CREATE TABLE in the lifecycle-execution
schema: `attempt_number INTEGER NOT NULL DEFAULT 1`, `status TEXT NOT
NULL DEFAULT 'pending'`, `last_error` NULL (empty here). -/
def addRetryJob (q : List RetryRow) (nextID : Nat) (now : Nat)
    (requestID toolName paramsJSON : String) (maxAttempts : Nat) :
    List RetryRow :=
  q ++ [⟨nextID, requestID, toolName, paramsJSON, 1, maxAttempts, 2, now + 2,
         "pending", ""⟩]

/-- UPDATE ... WHERE id = ?. -/
def updateRow (q : List RetryRow) (id : Nat) (f : RetryRow → RetryRow) :
    List RetryRow :=
  q.map fun r => if r.id == id then f r else r

/-- DELETE FROM retry_queue WHERE id = ?. -/
def deleteRow (q : List RetryRow) (id : Nat) : List RetryRow :=
  q.filter fun r => r.id != id

/-- One iteration of the row loop in server.go `ProcessRetryQueue`,
acting on the values scanned from row `r`.  `toolKnown` is the registry
lookup (`tools.Get`), `runTool` the tool execution outcome
(`executeTool`, whose value is discarded here). -/
def processRetryRow (toolKnown : String → Bool)
    (runTool : String → String → Except String Unit) (now : Nat)
    (st : RetryState) (r : RetryRow) : RetryState :=
  let st := { st with
    queue := updateRow st.queue r.id fun x => { x with status := "processing" } }
  if !toolKnown r.toolName then
    { st with queue := updateRow st.queue r.id fun x =>
        { x with status := "exhausted", lastError := "Tool not found" } }
  else
    match runTool r.toolName r.paramsJSON with
    | .error e =>
      if r.maxAttempts ≤ r.attemptNumber then
        { queue := updateRow st.queue r.id fun x => { x with status := "exhausted" },
          deadLetter := st.deadLetter ++
            [⟨r.requestID, r.toolName, r.paramsJSON, e, r.attemptNumber, 0, now⟩] }
      else
        let nextBackoff := r.backoffSeconds * 2
        { st with queue := updateRow st.queue r.id fun x =>
            { x with status := "pending", attemptNumber := r.attemptNumber + 1,
                     backoffSeconds := nextBackoff,
                     nextRetryAt := now + nextBackoff, lastError := e } }
    | .ok _ => { st with queue := deleteRow st.queue r.id }

/-- server.go `ProcessRetryQueue`: sweep the rows with `status = 'pending'`
and `next_retry_at <= now`, at most 10 per pass. -/
def processRetryQueue (toolKnown : String → Bool)
    (runTool : String → String → Except String Unit) (now : Nat)
    (st : RetryState) : RetryState :=
  let due := (st.queue.filter fun r =>
    r.status == "pending" && decide (r.nextRetryAt ≤ now)).take 10
  due.foldl (processRetryRow toolKnown runTool now) st

/-- The always-failing tool scenario of the claim: the tool exists and
every execution fails with the same error. -/
def alwaysFail : String → String → Except String Unit := fun _ _ => .error "boom"

/-- The retry state after enqueuing at t=0 and sweeping at t=2, 6, 14
(the instants the rearmed row comes due). -/
def retryScenarioFinal : RetryState :=
  processRetryQueue (fun _ => true) alwaysFail 14
    (processRetryQueue (fun _ => true) alwaysFail 6
      (processRetryQueue (fun _ => true) alwaysFail 2
        ⟨addRetryJob [] 1 0 "req-1" "failtool" "\x7b\x7d" 3, []⟩))

/-- C4 counterexample.  The claim says the exhausted row "is deleted from
the retry queue, so after exhaustion the retry queue holds no row for that
request ... and the retry queue is empty afterwards".  In the code the
exhaustion branch only executes `UPDATE retry_queue SET status =
'exhausted' WHERE id = ?` — there is no DELETE — so after the dead-letter
promotion the row is still there with status `exhausted` and the queue is
not empty. -/
theorem C4_retryQueueNotEmptied_counterexample :
    retryScenarioFinal.queue =
      [⟨1, "req-1", "failtool", "\x7b\x7d", 3, 3, 8, 14, "exhausted", "boom"⟩] ∧
    retryScenarioFinal.queue ≠ [] := by
  refine ⟨by decide, by decide⟩

/-- C4 (amended): with `max_retries = 3` and an always-failing tool, the
enqueued row is armed with backoff 2 (due at t+2); the first two failing
sweeps re-arm it with backoffs 4 and 8 and attempt counters 2 and 3; the
third failing sweep promotes it to the dead-letter table as exactly one
row carrying the full error context, and marks the retry-queue row
`exhausted` (the row is NOT deleted, but no pending row remains — the
sweeper only selects `status = 'pending'`, so a further sweep finds
nothing to do). -/
theorem C4_exhaustionDeadLetters :
    addRetryJob [] 1 0 "req-1" "failtool" "\x7b\x7d" 3 =
      [⟨1, "req-1", "failtool", "\x7b\x7d", 1, 3, 2, 2, "pending", ""⟩] ∧
    (processRetryQueue (fun _ => true) alwaysFail 2
        ⟨addRetryJob [] 1 0 "req-1" "failtool" "\x7b\x7d" 3, []⟩).queue =
      [⟨1, "req-1", "failtool", "\x7b\x7d", 2, 3, 4, 6, "pending", "boom"⟩] ∧
    (processRetryQueue (fun _ => true) alwaysFail 6
        (processRetryQueue (fun _ => true) alwaysFail 2
          ⟨addRetryJob [] 1 0 "req-1" "failtool" "\x7b\x7d" 3, []⟩)).queue =
      [⟨1, "req-1", "failtool", "\x7b\x7d", 3, 3, 8, 14, "pending", "boom"⟩] ∧
    retryScenarioFinal.deadLetter =
      [⟨"req-1", "failtool", "\x7b\x7d", "boom", 3, 0, 14⟩] ∧
    (retryScenarioFinal.queue.filter fun r => r.status == "pending") = [] ∧
    processRetryQueue (fun _ => true) alwaysFail 1000 retryScenarioFinal =
      retryScenarioFinal := by
  refine ⟨by decide, by decide, by decide, by decide, by decide, by decide⟩

/-! ## JSON values and serialization (encoding/json as the server uses it) -/

/-- A JSON value.  Go decodes JSON numbers into `float64`; the modelled
inputs only carry integral numbers, which `%v`/`json.Marshal` render
exactly as `Int` does.  Objects are association lists in serialization
order (Go maps marshal with sorted keys; the model constructs its objects
directly in that order). -/
inductive JVal
  | jnull
  | jbool (b : Bool)
  | jnum (n : Int)
  | jstr (s : String)
  | jarr (xs : List JVal)
  | jobj (fields : List (String × JVal))

def hexDigitChar (n : Nat) : Char :=
  if n < 10 then Char.ofNat (48 + n) else Char.ofNat (87 + n)

def hex4Str (n : Nat) : String :=
  String.mk [hexDigitChar (n / 4096 % 16), hexDigitChar (n / 256 % 16),
             hexDigitChar (n / 16 % 16), hexDigitChar (n % 16)]

/-- One character of Go `encoding/json` string escaping (including the
HTML-safe escapes for `<`, `>`, `&` and U+2028/U+2029). -/
def jsonEscapeChar (c : Char) : String :=
  if c = '"' then "\\\""
  else if c = '\\' then "\\\\"
  else if c = '\n' then "\\n"
  else if c = '\r' then "\\r"
  else if c = '\t' then "\\t"
  else if c = '<' then "\\u003c"
  else if c = '>' then "\\u003e"
  else if c = '&' then "\\u0026"
  else if c.toNat = 0x2028 then "\\u2028"
  else if c.toNat = 0x2029 then "\\u2029"
  else if c.toNat < 32 then "\\u" ++ hex4Str c.toNat
  else String.singleton c

def jsonEscapeString (s : String) : String :=
  String.join (s.data.map jsonEscapeChar)

mutual
/-- `json.Marshal` of a value (mutually with its array elements and object
fields). -/
def jsonSerialize : JVal → String
  | .jnull => "null"
  | .jbool true => "true"
  | .jbool false => "false"
  | .jnum n => toString n
  | .jstr s => "\"" ++ jsonEscapeString s ++ "\""
  | .jarr xs => "[" ++ jsonSerializeItems xs ++ "]"
  | .jobj fs => "\x7b" ++ jsonSerializeFields fs ++ "\x7d"

def jsonSerializeItems : List JVal → String
  | [] => ""
  | [x] => jsonSerialize x
  | x :: y :: xs => jsonSerialize x ++ "," ++ jsonSerializeItems (y :: xs)

def jsonSerializeFields : List (String × JVal) → String
  | [] => ""
  | [(k, v)] => "\"" ++ jsonEscapeString k ++ "\":" ++ jsonSerialize v
  | (k, v) :: f :: fs =>
    "\"" ++ jsonEscapeString k ++ "\":" ++ jsonSerialize v ++ "," ++
      jsonSerializeFields (f :: fs)
end

/-- Field lookup in a JSON object (none on other values). -/
def objLookup (v : JVal) (k : String) : Option JVal :=
  match v with
  | .jobj fs => (fs.find? fun f => f.1 == k).map (·.2)
  | _ => none

/-! ## JSON-RPC responses (server.go: JSONRPCResponse, sendResult,
sendError) -/

/-- server.go RPCError. -/
structure RPCErrorM where
  code : Int
  message : String
  data : Option JVal

/-- server.go JSONRPCResponse before marshalling.  `id : Option JVal`
models the Go `interface{}` field, `none` being the nil interface. -/
structure JSONRPCResponseM where
  id : Option JVal
  result : Option JVal
  error : Option RPCErrorM

def rpcErrorJSON (e : RPCErrorM) : JVal :=
  .jobj ([("code", .jnum e.code), ("message", .jstr e.message)] ++
    (match e.data with | some d => [("data", d)] | none => []))

/-- The members of the JSON object `send` emits for a response: `jsonrpc`
and `id` carry no `omitempty` tag and always appear (a nil id marshals as
`null`); `result` and `error` carry `omitempty` and are dropped when
nil. -/
def responseJSONKeys (r : JSONRPCResponseM) : List (String × JVal) :=
  [("jsonrpc", .jstr "2.0"), ("id", r.id.getD .jnull)] ++
  (match r.result with | some v => [("result", v)] | none => []) ++
  (match r.error with | some e => [("error", rpcErrorJSON e)] | none => [])

def lookupKey (fs : List (String × JVal)) (k : String) : Option JVal :=
  (fs.find? fun f => f.1 == k).map (·.2)

/-! ## Attach whitelist (db.go: ValidateAttachPath) and SQL execution
(server.go: executeSQL, executeTool) -/

/-- A row of `allowed_attach_paths` (core shard). -/
structure AttachRow where
  workerName : String
  dbPath : String
  dbType : String
  allowed : Int
deriving DecidableEq, Repr

/-- db.go `Manager.ValidateAttachPath`: QueryRow by `db_path` (the first
matching row); no row → not-in-whitelist error; `allowed ≠ 1` → disabled
error; otherwise ok. -/
def validateAttachPath (wl : List AttachRow) (path : String) :
    Except String Unit :=
  match wl.find? (fun r => r.dbPath == path) with
  | none => .error ("ATTACH forbidden: path not in whitelist: " ++ path)
  | some r =>
    if r.allowed ≠ 1 then .error ("ATTACH forbidden: path disabled: " ++ path)
    else .ok ()

/-- The abstract SQLite engine behind `s.db.LifecycleTools`: `query`
returns the already-shaped value of the source's row collection and
single-cell JSON auto-unwrap (no claim concerns result shaping), `exec`
returns (rows affected, last insert id).  The engine executes whatever
statement it is handed — it performs no policy checks. -/
structure SQLEngine where
  query : GoStr → Except String JVal
  exec : GoStr → Except String (Int × Int)

/-- server.go `executeSQL`: a statement whose trimmed, upper-cased text
starts with `SELECT` goes through Query; everything else — including any
`ATTACH` — goes straight to Exec.  The function inspects nothing else
about the SQL; in particular it never calls `ValidateAttachPath` (which
has no callers in the repository). -/
def executeSQL (en : SQLEngine) (sql : GoStr) : Except String JVal :=
  let trimmed := trimSpaceB sql
  if hasPrefixB (toUpperB trimmed) (gostr "SELECT") then
    en.query sql
  else
    (en.exec sql).map fun ra =>
      .jobj [("rows_affected", .jnum ra.1), ("last_insert_id", .jnum ra.2)]

/-- The coercion from a JSON argument value to the `interface{}` switch of
`substituteParams` (composite values go through `json.Marshal`). -/
def jvalToGoValue : JVal → GoValue
  | .jstr s => .vStr (gostr s)
  | .jnum n => .vNum n
  | .jbool b => .vBool b
  | .jnull => .vNull
  | v => .vJSON (gostr (jsonSerialize v))

/-- A tool step as loaded by the tools package (`tool_implementations`
row; `order`, `error_handler` and `condition` are loaded but never used by
the executor). -/
structure ToolStepM where
  order : Int
  name : String
  stepType : String
  sqlTemplate : GoStr
  errorHandler : String
  condition : String

/-- A tool as loaded by the tools package (`tool_definitions` row plus its
steps; `retryPolicy` and `maxRetries` are loaded but never read by the
dispatcher). -/
structure ToolM where
  name : String
  description : String
  inputSchema : JVal
  category : String
  version : Int
  enabled : Bool
  timeoutSecs : Int
  retryPolicy : String
  maxRetries : Int
  steps : List ToolStepM

/-- One step of server.go `executeTool`: render the template, then act on
the step type (`validate` runs Exec directly and maps failure to a
validation error; `sql` goes through `executeSQL`; `attach` and
`transform` return their trivial success tokens). -/
def runToolStep (en : SQLEngine) (argsC : List (GoStr × GoValue))
    (step : ToolStepM) : Except String JVal :=
  let sqlR := substituteParams step.sqlTemplate argsC
  match step.stepType with
  | "validate" =>
    match en.exec sqlR with
    | .error e => .error ("validation failed at step " ++ step.name ++ ": " ++ e)
    | .ok _ => .ok (.jobj [("validated", .jbool true)])
  | "sql" =>
    match executeSQL en sqlR with
    | .error e =>
      .error ("SQL execution failed at step " ++ step.name ++ ": " ++ e)
    | .ok v => .ok v
  | "attach" => .ok (.jobj [("attached", .jbool true)])
  | "transform" => .ok (.jobj [("transformed", .jbool true)])
  | st => .error ("unknown step type: " ++ st)

/-- The step loop of server.go `executeTool`: each step's value replaces
the last result; the first error aborts. -/
def runSteps (en : SQLEngine) (argsC : List (GoStr × GoValue)) :
    List ToolStepM → JVal → Except String JVal
  | [], last => .ok last
  | s :: rest, _ =>
    match runToolStep en argsC s with
    | .error e => .error e
    | .ok v => runSteps en argsC rest v

/-- server.go `executeTool`. -/
def executeTool (en : SQLEngine) (tool : ToolM) (args : List (String × JVal)) :
    Except String JVal :=
  if tool.steps.isEmpty then
    .ok (.jobj [("message", .jstr "Tool executed (no steps defined)"),
                ("tool", .jstr tool.name), ("args", .jobj args)])
  else
    runSteps en (args.map fun kv => (gostr kv.1, jvalToGoValue kv.2))
      tool.steps .jnull

/-! ## JSON-RPC dispatcher (server.go: handleRequest, handleToolsCall,
hashRequest, Start) -/

/-- server.go `hashRequest`: SHA-256 hex of the marshalled
`(method, string(params))` pair.  The hash function itself is modelled by
the canonical pairing of the two strings — the claims only require that
identical requests map to identical fingerprints. -/
def hashRequest (method paramsRaw : String) : String :=
  "sha256(" ++ method ++ "|" ++ paramsRaw ++ ")"

/-- The idempotency whitelist of server.go `handleRequest`. -/
def skipIdempotence (method : String) : Bool :=
  method == "initialize" || method == "tools/list" ||
    method == "resources/list" || method == "prompts/list" || method == "ping"

/-- chromium.IsBrowserTool. -/
def isBrowserTool (name : String) : Bool := name == "browser"

/-- brainloop.IsBrainloopTool. -/
def isBrainloopTool (name : String) : Bool := name == "brainloop"

/-- The parsed `params` of a tools/call (server.go `handleToolsCall`'s
unmarshal target). -/
structure CallParams where
  name : String
  arguments : List (String × JVal)

/-- A stdin line after JSON parsing.  The JSON text parser itself is not
re-implemented: a request carries its raw params text (used for the
fingerprint) together with the parse of those params as tools/call
parameters (`none` when `json.Unmarshal` would fail). -/
structure RequestM where
  id : Option JVal
  method : String
  paramsRaw : String
  callParams : Option CallParams

/-- `fmt.Sprintf("%v", req.ID)` for the request-id column (a nil
interface prints `<nil>`; composite renderings are approximated by their
JSON form, which no claim inspects). -/
def reqIDString : Option JVal → String
  | none => "<nil>"
  | some .jnull => "<nil>"
  | some (.jstr s) => s
  | some (.jnum n) => toString n
  | some (.jbool b) => toString b
  | some v => jsonSerialize v

/-- SHA-256 hex of the marshalled result (abstracted like
`hashRequest`). -/
def resultHashOf (v : JVal) : String := "sha256(" ++ jsonSerialize v ++ ")"

/-- Observable side effects of handling one request, in program order. -/
inductive Effect
  | routed (method : String)
  | markProcessedFx (hash status : String)
  | breakerFailureFx (tool : String)
  | breakerSuccessFx (tool : String)
  | persistResultFx (tool : String)
  | securityEventFx (kind : String)
  | enqueueRetryFx (tool : String)
deriving DecidableEq, Repr

/-- The server state a request handler touches: the processed_log ledger,
the tool-catalog snapshot, the in-memory breakers, the attach whitelist of
the core shard (held in the state but — faithfully to the source — never
consulted by the dispatcher), and the clock. -/
structure ServerSt where
  processed : List ProcessedEntry
  catalog : List ToolM
  breakers : List (String × Breaker)
  whitelist : List AttachRow
  now : Nat

/-- The built-in browser/brainloop tool hosts (the chromium and brainloop
packages, external to the request-processing core): their execute entry
points and MCP descriptors are oracles. -/
structure ExternalTools where
  browserExec : String → List (String × JVal) → Except String JVal
  brainloopExec : String → List (String × JVal) → Except String JVal
  browserDefs : List JVal
  brainloopDefs : List JVal

/-- circuit.Manager.Get on the in-memory map. -/
def getBreaker (brs : List (String × Breaker)) (name : String) (now : Nat) :
    Breaker :=
  match brs.find? (fun p => p.1 == name) with
  | some p => p.2
  | none => defaultBreaker name now

def setBreaker (brs : List (String × Breaker)) (name : String) (b : Breaker) :
    List (String × Breaker) :=
  match brs.find? (fun p => p.1 == name) with
  | some _ => brs.map fun p => if p.1 == name then (name, b) else p
  | none => brs ++ [(name, b)]

/-- The MCP content envelope of a successful tools/call. -/
def contentEnvelope (result : JVal) : JVal :=
  .jobj [("content", .jarr [.jobj [("type", .jstr "text"),
                                   ("text", .jstr (jsonSerialize result))]])]

/-- tools.Tool.ToMCPSchema. -/
def toMCPSchema (t : ToolM) : JVal :=
  .jobj [("name", .jstr t.name), ("description", .jstr t.description),
         ("inputSchema", t.inputSchema)]

/-- server.go handleInitialize's result. -/
def initializeResult : JVal :=
  .jobj [("protocolVersion", .jstr "2024-11-05"),
         ("serverInfo", .jobj [("name", .jstr "holow-mcp"),
                               ("version", .jstr "1.0.0")]),
         ("capabilities", .jobj
           [("tools", .jobj [("listChanged", .jbool true)]),
            ("resources", .jobj [("subscribe", .jbool false),
                                 ("listChanged", .jbool false)]),
            ("prompts", .jobj [("listChanged", .jbool false)])])]

/-- server.go handleToolsList's result: built-in browser and brainloop
descriptors followed by the SQL-backed catalog. -/
def toolsListResult (ext : ExternalTools) (st : ServerSt) : JVal :=
  .jobj [("tools", .jarr (ext.browserDefs ++ ext.brainloopDefs ++
    st.catalog.map toMCPSchema))]

/-- server.go `handleToolsCall`.  Returns the handler verdict, the updated
state, and the effects in program order.  The failure path records the
breaker failure and returns `-32000` — it contains no call to
`AddRetryJob` (which, like `ProcessRetryQueue`, has no callers in the
repository), so no `enqueueRetryFx` effect is ever produced. -/
def handleToolsCall (en : SQLEngine) (ext : ExternalTools) (st : ServerSt)
    (callParams : Option CallParams) :
    Except RPCErrorM JVal × ServerSt × List Effect :=
  match callParams with
  | none => (.error ⟨-32602, "Invalid params", some (.jstr "unmarshal error")⟩,
             st, [])
  | some cp =>
    if isBrowserTool cp.name then
      match ext.browserExec cp.name cp.arguments with
      | .error e => (.error ⟨-32000, "Browser tool failed", some (.jstr e)⟩,
                     st, [])
      | .ok v => (.ok (contentEnvelope v), st, [])
    else if isBrainloopTool cp.name then
      match ext.brainloopExec cp.name cp.arguments with
      | .error e => (.error ⟨-32000, "Brainloop tool failed", some (.jstr e)⟩,
                     st, [])
      | .ok v => (.ok (contentEnvelope v), st, [])
    else
      match st.catalog.find? (fun t => t.name == cp.name) with
      | none => (.error ⟨-32602, "Tool not found", some (.jstr cp.name)⟩, st, [])
      | some tool =>
        let b := getBreaker st.breakers cp.name st.now
        let p := canExecute b st.now
        let st1 := { st with breakers := setBreaker st.breakers cp.name p.2 }
        if !p.1 then
          (.error ⟨-32000, "Circuit breaker open",
             some (.jstr ("circuit breaker " ++ cp.name ++ " is open"))⟩,
           st1, [.securityEventFx "circuit_open"])
        else
          match executeTool en tool cp.arguments with
          | .error e =>
            (.error ⟨-32000, "Tool execution failed", some (.jstr e)⟩,
             { st1 with breakers :=
                 setBreaker st1.breakers cp.name (recordFailure p.2 st.now) },
             [.breakerFailureFx cp.name])
          | .ok v =>
            (.ok (contentEnvelope v),
             { st1 with breakers :=
                 setBreaker st1.breakers cp.name (recordSuccess p.2 st.now) },
             [.breakerSuccessFx cp.name, .persistResultFx cp.name])

/-- The generic replay payload of server.go `handleRequest`. -/
def cachedReplay : JVal :=
  .jobj [("cached", .jbool true), ("message", .jstr "Request already processed")]

/-- The method switch of server.go `handleRequest` (the routing step). -/
def routeRequest (en : SQLEngine) (ext : ExternalTools) (st : ServerSt)
    (req : RequestM) : Except RPCErrorM JVal × ServerSt × List Effect :=
  match req.method with
  | "initialize" => (.ok initializeResult, st, [.routed "initialize"])
  | "tools/list" => (.ok (toolsListResult ext st), st, [.routed "tools/list"])
  | "tools/call" =>
    let r := handleToolsCall en ext st req.callParams
    (r.1, r.2.1, .routed "tools/call" :: r.2.2)
  | "resources/list" =>
    (.ok (.jobj [("resources", .jarr [])]), st, [.routed "resources/list"])
  | "prompts/list" =>
    (.ok (.jobj [("prompts", .jarr [])]), st, [.routed "prompts/list"])
  | m => (.error ⟨-32601, "Method not found", none⟩, st, [.routed m])

/-- server.go `handleRequest` on one stdin line (`none` = the line did not
parse as a JSON-RPC request; the concrete Unmarshal error text is
represented by a fixed message, which no claim inspects).  For a
non-whitelisted method whose fingerprint is already in processed_log the
cached replay is returned and no handler runs; otherwise the method is
routed, and the outcome — success or error — is recorded in processed_log
(`MarkProcessed`, whose duplicate-key failure the source ignores). -/
def handleRequest (en : SQLEngine) (ext : ExternalTools) (st : ServerSt)
    (line : Option RequestM) :
    JSONRPCResponseM × ServerSt × List Effect :=
  match line with
  | none =>
    (⟨none, none, some ⟨-32700, "Parse error", some (.jstr "invalid JSON")⟩⟩,
     st, [])
  | some req =>
    let hash := hashRequest req.method req.paramsRaw
    if !skipIdempotence req.method && checkProcessed st.processed hash then
      (⟨req.id, some cachedReplay, none⟩, st, [])
    else
      match routeRequest en ext st req with
      | (.error e, st1, fx) =>
        (⟨req.id, none, some e⟩,
         { st1 with processed :=
             (markProcessed st1.processed hash (reqIDString req.id) req.method
               "failed" "" 0).1 },
         fx ++ [.markProcessedFx hash "failed"])
      | (.ok v, st1, fx) =>
        (⟨req.id, some v, none⟩,
         { st1 with processed :=
             (markProcessed st1.processed hash (reqIDString req.id) req.method
               "success" (resultHashOf v) 0).1 },
         fx ++ [.markProcessedFx hash "success"])

/-- The background loops launched on startup, in program order
(server.go `Start`): the registry poll inside `tools.Manager.Start`, the
metrics sampler inside `Collector.Start`, the heartbeat loop, the
poison-pill poll, the CDP command pump, and the signal handler.  No retry
sweeper is started anywhere. -/
def serverStartLoops : List String :=
  ["tools_poll", "metrics_collect", "heartbeat", "poison_pill",
   "cdp_process", "signal_handler"]

/-- Status recorded in processed_log for a fingerprint. -/
def processedStatus (log : List ProcessedEntry) (h : String) : Option String :=
  (log.find? (fun r => r.hash == h)).map (·.status)

/-- A database that accepts every statement (empty shard). -/
def enAccepting : SQLEngine := ⟨fun _ => .ok .jnull, fun _ => .ok (0, 0)⟩

/-- A database on which every statement fails. -/
def enFailing : SQLEngine := ⟨fun _ => .error "boom", fun _ => .error "boom"⟩

/-- External-tool hosts that answer trivially (unused by the modelled
requests, which never name `browser` or `brainloop`). -/
def extTrivial : ExternalTools :=
  ⟨fun _ _ => .ok .jnull, fun _ _ => .ok .jnull, [], []⟩

/-- A freshly started server with empty shards. -/
def stEmpty : ServerSt := ⟨[], [], [], [], 0⟩

theorem insertProcessedLog_mem (log : List ProcessedEntry)
    (e : ProcessedEntry) :
    checkProcessed (insertProcessedLog log e).1 e.hash = true := by
  rw [insertProcessedLog]
  split
  · assumption
  · simp [checkProcessed]

theorem insertProcessedLog_status (log : List ProcessedEntry)
    (e : ProcessedEntry) (h : checkProcessed log e.hash = false) :
    processedStatus (insertProcessedLog log e).1 e.hash = some e.status := by
  have h' : ∀ r ∈ log, (r.hash == e.hash) = false := by
    intro r hr
    by_contra hne
    rw [Bool.not_eq_false] at hne
    have hc : checkProcessed log e.hash = true := by
      rw [checkProcessed, List.any_eq_true]
      exact ⟨r, hr, hne⟩
    rw [hc] at h
    cases h
  rw [insertProcessedLog, if_neg (by rw [checkProcessed] at h; simp [h])]
  rw [processedStatus, List.find?_append]
  have hnone : log.find? (fun r => r.hash == e.hash) = none := by
    rw [List.find?_eq_none]
    intro r hr
    simp [h' r hr]
  rw [hnone]
  simp [List.find?]

/-- Whatever the method and the initial state, handling a parsed request
leaves its fingerprint in processed_log: the cached branch required it
there already, and both routed outcomes insert it (`MarkProcessed`). -/
theorem handleRequest_fingerprint_recorded (en : SQLEngine)
    (ext : ExternalTools) (st : ServerSt) (req : RequestM) :
    checkProcessed (handleRequest en ext st (some req)).2.1.processed
      (hashRequest req.method req.paramsRaw) = true := by
  rw [handleRequest]
  split
  · rename_i hguard
    simp only [Bool.and_eq_true, Bool.not_eq_true'] at hguard
    exact hguard.2
  · split
    · exact insertProcessedLog_mem _ _
    · exact insertProcessedLog_mem _ _

/-- A non-whitelisted request whose fingerprint is already recorded gets
the generic cached replay, with no state change and no effect. -/
theorem handleRequest_cached (en : SQLEngine) (ext : ExternalTools)
    (st : ServerSt) (req : RequestM)
    (hskip : skipIdempotence req.method = false)
    (hchk : checkProcessed st.processed
      (hashRequest req.method req.paramsRaw) = true) :
    handleRequest en ext st (some req) =
      (⟨req.id, some cachedReplay, none⟩, st, []) := by
  rw [handleRequest]
  rw [if_pos (by simp [hskip, hchk])]

/-- C2 (evaluating the code at the failing input): `ValidateAttachPath`
does implement the whitelist check — it succeeds exactly when the first
`allowed_attach_paths` row for the path has `allowed = 1`, and fails with
the forbidden-path error otherwise — but nothing in the repository calls
it: `executeSQL` routes an `ATTACH` statement straight to Exec, and a
`sql` tool step whose rendered SQL is an ATTACH for a path absent from
the whitelist executes successfully whatever the whitelist contains. -/
theorem C2_attachWhitelistNotEnforced :
    validateAttachPath [] "/tmp/x.db" =
      .error "ATTACH forbidden: path not in whitelist: /tmp/x.db" ∧
    (∀ (wl : List AttachRow) (path : String),
      validateAttachPath wl path = .ok () ↔
        ∃ row, wl.find? (fun r => r.dbPath == path) = some row ∧
          row.allowed = 1) ∧
    executeSQL enAccepting (gostr "ATTACH DATABASE '/tmp/x.db' AS x") =
      .ok (.jobj [("rows_affected", .jnum 0), ("last_insert_id", .jnum 0)]) ∧
    (∀ wl : List AttachRow,
      (handleToolsCall enAccepting extTrivial
        { stEmpty with
            catalog := [⟨"attacker", "", .jobj [], "", 1, true, 30, "none", 0,
              [⟨1, "s1", "sql", gostr "ATTACH DATABASE '/tmp/x.db' AS x",
                "", ""⟩]⟩],
            whitelist := wl }
        (some ⟨"attacker", []⟩)).1 =
      .ok (contentEnvelope
        (.jobj [("rows_affected", .jnum 0), ("last_insert_id", .jnum 0)]))) := by
  refine ⟨rfl, fun wl path => ?_, rfl, fun wl => rfl⟩
  rw [validateAttachPath]
  cases hfind : wl.find? (fun r => r.dbPath == path) with
  | none => simp
  | some row =>
    by_cases hal : row.allowed = 1
    · simp [hal]
    · simp [hal]

/-- C9 counterexample: the claim says the `-32700` response to an
unparseable line omits the `id` member.  The Go `JSONRPCResponse.ID`
field has no `omitempty` tag, so the emitted object always contains an
`id` member; with a nil id it is serialised as JSON `null`. -/
theorem C9_idMemberPresent_counterexample :
    lookupKey (responseJSONKeys
      (handleRequest enAccepting extTrivial stEmpty none).1) "id" =
      some .jnull ∧
    ¬ lookupKey (responseJSONKeys
      (handleRequest enAccepting extTrivial stEmpty none).1) "id" = none := by
  refine ⟨rfl, fun h => ?_⟩
  rw [show lookupKey (responseJSONKeys
      (handleRequest enAccepting extTrivial stEmpty none).1) "id" =
      some JVal.jnull from rfl] at h
  exact Option.noConfusion h

/-- C9 (amended): a stdin line that does not parse as a JSON-RPC request
is answered with error code `-32700` and an `id` member that is present
with value JSON `null` (not omitted): the response members are exactly
`jsonrpc`, `id` = null, `error`. -/
theorem C9_parseError_idNull :
    ∀ (en : SQLEngine) (ext : ExternalTools) (st : ServerSt),
      (handleRequest en ext st none).1 =
        ⟨none, none, some ⟨-32700, "Parse error", some (.jstr "invalid JSON")⟩⟩ ∧
      (handleRequest en ext st none).2.1 = st ∧
      responseJSONKeys (handleRequest en ext st none).1 =
        [("jsonrpc", .jstr "2.0"), ("id", .jnull),
         ("error", .jobj [("code", .jnum (-32700)),
                          ("message", .jstr "Parse error"),
                          ("data", .jstr "invalid JSON")])] :=
  fun en ext st => ⟨rfl, rfl, rfl⟩

/-- C5 (evaluating the code at the failing input): a `tools/call` of a
SQL-backed tool with `retry_policy = 'exponential'` whose execution fails
returns `-32000` to the caller at once, and the only side effects are the
breaker failure and the failed processed_log record — no retry row is
enqueued (`AddRetryJob` has no callers), and the startup loops include no
retry sweeper (`ProcessRetryQueue` has no callers). -/
theorem C5_noRetryEnqueuedNoSweeper :
    (handleRequest enFailing extTrivial
        { stEmpty with catalog := [⟨"failtool", "", .jobj [], "", 1, true, 30,
          "exponential", 3,
          [⟨1, "s1", "sql", gostr "INSERT INTO t VALUES (1)", "", ""⟩]⟩] }
        (some ⟨some (.jnum 1), "tools/call", "rawparams",
               some ⟨"failtool", []⟩⟩)).1.error =
      some ⟨-32000, "Tool execution failed",
        some (.jstr "SQL execution failed at step s1: boom")⟩ ∧
    (handleRequest enFailing extTrivial
        { stEmpty with catalog := [⟨"failtool", "", .jobj [], "", 1, true, 30,
          "exponential", 3,
          [⟨1, "s1", "sql", gostr "INSERT INTO t VALUES (1)", "", ""⟩]⟩] }
        (some ⟨some (.jnum 1), "tools/call", "rawparams",
               some ⟨"failtool", []⟩⟩)).2.2 =
      [.routed "tools/call", .breakerFailureFx "failtool",
       .markProcessedFx (hashRequest "tools/call" "rawparams") "failed"] ∧
    (∀ t : String, Effect.enqueueRetryFx t ∉
      (handleRequest enFailing extTrivial
        { stEmpty with catalog := [⟨"failtool", "", .jobj [], "", 1, true, 30,
          "exponential", 3,
          [⟨1, "s1", "sql", gostr "INSERT INTO t VALUES (1)", "", ""⟩]⟩] }
        (some ⟨some (.jnum 1), "tools/call", "rawparams",
               some ⟨"failtool", []⟩⟩)).2.2) ∧
    "retry_sweeper" ∉ serverStartLoops := by
  refine ⟨rfl, ?_, fun t => ?_, by decide⟩
  · rfl
  · intro hmem
    rw [show (handleRequest enFailing extTrivial
        { stEmpty with catalog := [⟨"failtool", "", .jobj [], "", 1, true, 30,
          "exponential", 3,
          [⟨1, "s1", "sql", gostr "INSERT INTO t VALUES (1)", "", ""⟩]⟩] }
        (some ⟨some (.jnum 1), "tools/call", "rawparams",
               some ⟨"failtool", []⟩⟩)).2.2 =
      [.routed "tools/call", .breakerFailureFx "failtool",
       .markProcessedFx (hashRequest "tools/call" "rawparams") "failed"]
      from rfl] at hmem
    simp at hmem

theorem handleToolsCall_processed (en : SQLEngine) (ext : ExternalTools)
    (st : ServerSt) (cps : Option CallParams) :
    (handleToolsCall en ext st cps).2.1.processed = st.processed := by
  rw [handleToolsCall.eq_def]
  repeat' split
  all_goals try rfl
  all_goals simp only []
  all_goals repeat' split
  all_goals rfl

theorem routeRequest_processed (en : SQLEngine) (ext : ExternalTools)
    (st : ServerSt) (req : RequestM) :
    (routeRequest en ext st req).2.1.processed = st.processed := by
  rw [routeRequest]
  split
  · rfl
  · rfl
  · exact handleToolsCall_processed en ext st req.callParams
  · rfl
  · rfl
  · rfl

/-- When the cached-replay guard is false, `handleRequest` is the routed
outcome followed by the `MarkProcessed` record of its verdict. -/
theorem handleRequest_route_eq (en : SQLEngine) (ext : ExternalTools)
    (st : ServerSt) (req : RequestM)
    (hguard : (!skipIdempotence req.method &&
      checkProcessed st.processed (hashRequest req.method req.paramsRaw)) = false) :
    handleRequest en ext st (some req) =
      match routeRequest en ext st req with
      | (.error e, st1, fx) =>
        (⟨req.id, none, some e⟩,
         { st1 with processed :=
             (markProcessed st1.processed (hashRequest req.method req.paramsRaw)
               (reqIDString req.id) req.method "failed" "" 0).1 },
         fx ++ [.markProcessedFx (hashRequest req.method req.paramsRaw) "failed"])
      | (.ok v, st1, fx) =>
        (⟨req.id, some v, none⟩,
         { st1 with processed :=
             (markProcessed st1.processed (hashRequest req.method req.paramsRaw)
               (reqIDString req.id) req.method "success" (resultHashOf v) 0).1 },
         fx ++ [.markProcessedFx (hashRequest req.method req.paramsRaw) "success"]) := by
  rw [handleRequest, if_neg (by simp [hguard])]

/-- C6: for every method outside the idempotency whitelist, an identical
resubmission is answered from the ledger: the second response carries the
generic payload with `cached: true` and message "Request already
processed", and produces no routing (the handler does not run again);
for the five whitelisted methods the request is always routed and the
response payload never contains `cached: true` (the four implemented
read-only handlers return fixed shapes without a `cached` member, and
`ping` — absent from the method switch — yields `-32601` with no result
at all). -/
theorem C6_idempotencyAndWhitelist :
    (∀ (en : SQLEngine) (ext : ExternalTools) (st : ServerSt) (req : RequestM),
      skipIdempotence req.method = false →
      (handleRequest en ext
          (handleRequest en ext st (some req)).2.1 (some req)).1 =
        ⟨req.id, some cachedReplay, none⟩ ∧
      (handleRequest en ext
          (handleRequest en ext st (some req)).2.1 (some req)).2.2 = [] ∧
      objLookup cachedReplay "cached" = some (.jbool true) ∧
      objLookup cachedReplay "message" =
        some (.jstr "Request already processed")) ∧
    (∀ (en : SQLEngine) (ext : ExternalTools) (st : ServerSt) (req : RequestM),
      skipIdempotence req.method = true →
      (∀ v, (handleRequest en ext st (some req)).1.result = some v →
        objLookup v "cached" ≠ some (.jbool true)) ∧
      .routed req.method ∈ (handleRequest en ext st (some req)).2.2) := by
  constructor
  · intro en ext st req hskip
    rw [handleRequest_cached en ext (handleRequest en ext st (some req)).2.1 req
      hskip (handleRequest_fingerprint_recorded en ext st req)]
    exact ⟨rfl, rfl, rfl, rfl⟩
  · intro en ext st req hskip
    obtain ⟨rid, m, raw, cps⟩ := req
    simp only [skipIdempotence, Bool.or_eq_true, beq_iff_eq] at hskip
    rcases hskip with (((h | h) | h) | h) | h <;> subst h
    · refine ⟨fun v hv => ?_, ?_⟩
      · rw [show (handleRequest en ext st
            (some ⟨rid, "initialize", raw, cps⟩)).1.result =
            some initializeResult from rfl] at hv
        cases hv
        intro hc
        rw [show objLookup initializeResult "cached" = none from rfl] at hc
        cases hc
      · rw [show (handleRequest en ext st
            (some ⟨rid, "initialize", raw, cps⟩)).2.2 =
            [Effect.routed "initialize",
             Effect.markProcessedFx (hashRequest "initialize" raw) "success"]
            from rfl]
        simp
    · refine ⟨fun v hv => ?_, ?_⟩
      · rw [show (handleRequest en ext st
            (some ⟨rid, "tools/list", raw, cps⟩)).1.result =
            some (toolsListResult ext st) from rfl] at hv
        cases hv
        intro hc
        rw [show objLookup (toolsListResult ext st) "cached" = none from rfl] at hc
        cases hc
      · rw [show (handleRequest en ext st
            (some ⟨rid, "tools/list", raw, cps⟩)).2.2 =
            [Effect.routed "tools/list",
             Effect.markProcessedFx (hashRequest "tools/list" raw) "success"]
            from rfl]
        simp
    · refine ⟨fun v hv => ?_, ?_⟩
      · rw [show (handleRequest en ext st
            (some ⟨rid, "resources/list", raw, cps⟩)).1.result =
            some (.jobj [("resources", .jarr [])]) from rfl] at hv
        cases hv
        intro hc
        rw [show objLookup (JVal.jobj [("resources", .jarr [])]) "cached" = none
            from rfl] at hc
        cases hc
      · rw [show (handleRequest en ext st
            (some ⟨rid, "resources/list", raw, cps⟩)).2.2 =
            [Effect.routed "resources/list",
             Effect.markProcessedFx (hashRequest "resources/list" raw) "success"]
            from rfl]
        simp
    · refine ⟨fun v hv => ?_, ?_⟩
      · rw [show (handleRequest en ext st
            (some ⟨rid, "prompts/list", raw, cps⟩)).1.result =
            some (.jobj [("prompts", .jarr [])]) from rfl] at hv
        cases hv
        intro hc
        rw [show objLookup (JVal.jobj [("prompts", .jarr [])]) "cached" = none
            from rfl] at hc
        cases hc
      · rw [show (handleRequest en ext st
            (some ⟨rid, "prompts/list", raw, cps⟩)).2.2 =
            [Effect.routed "prompts/list",
             Effect.markProcessedFx (hashRequest "prompts/list" raw) "success"]
            from rfl]
        simp
    · refine ⟨fun v hv => ?_, ?_⟩
      · rw [show (handleRequest en ext st
            (some ⟨rid, "ping", raw, cps⟩)).1.result = none from rfl] at hv
        cases hv
      · rw [show (handleRequest en ext st
            (some ⟨rid, "ping", raw, cps⟩)).2.2 =
            [Effect.routed "ping",
             Effect.markProcessedFx (hashRequest "ping" raw) "failed"]
            from rfl]
        simp

/-- Witness for `C6_idempotencyAndWhitelist`: a duplicated `tools/call`
with unparseable params is answered `cached: true` the second time with no
routing, and a `tools/list` replay is routed every time. -/
theorem C6_idempotencyAndWhitelist_witness :
    (handleRequest enAccepting extTrivial
        (handleRequest enAccepting extTrivial stEmpty
          (some ⟨some (.jnum 7), "tools/call", "rawA", none⟩)).2.1
        (some ⟨some (.jnum 7), "tools/call", "rawA", none⟩)).1 =
      ⟨some (.jnum 7), some cachedReplay, none⟩ ∧
    (handleRequest enAccepting extTrivial
        (handleRequest enAccepting extTrivial stEmpty
          (some ⟨some (.jnum 7), "tools/call", "rawA", none⟩)).2.1
        (some ⟨some (.jnum 7), "tools/call", "rawA", none⟩)).2.2 = [] ∧
    Effect.routed "tools/list" ∈
      (handleRequest enAccepting extTrivial stEmpty
        (some ⟨none, "tools/list", "rawB", none⟩)).2.2 := by
  have h1 := C6_idempotencyAndWhitelist.1 enAccepting extTrivial stEmpty
    ⟨some (.jnum 7), "tools/call", "rawA", none⟩ (by decide)
  have h2 := C6_idempotencyAndWhitelist.2 enAccepting extTrivial stEmpty
    ⟨none, "tools/list", "rawB", none⟩ (by decide)
  exact ⟨h1.1, h1.2.1, h2.2⟩

/-- C10: every non-whitelisted request that ends in an error — method not
found, unknown tool, tool execution failure, and every other error the
router can produce — is recorded in processed_log with status `failed`,
and an identical resubmission is answered with the generic `cached: true`
replay without routing anything, so a failure is never retried by
resubmitting the same request. -/
theorem C10_failedRequestReplayCached :
    ∀ (en : SQLEngine) (ext : ExternalTools) (st : ServerSt) (req : RequestM)
      (e : RPCErrorM),
      skipIdempotence req.method = false →
      (handleRequest en ext st (some req)).1.error = some e →
      processedStatus (handleRequest en ext st (some req)).2.1.processed
        (hashRequest req.method req.paramsRaw) = some "failed" ∧
      (handleRequest en ext
          (handleRequest en ext st (some req)).2.1 (some req)).1 =
        ⟨req.id, some cachedReplay, none⟩ ∧
      (handleRequest en ext
          (handleRequest en ext st (some req)).2.1 (some req)).2.2 = [] := by
  intro en ext st req e hskip herr
  refine ⟨?_,
    (by rw [handleRequest_cached en ext (handleRequest en ext st (some req)).2.1
       req hskip (handleRequest_fingerprint_recorded en ext st req)]),
    (by rw [handleRequest_cached en ext (handleRequest en ext st (some req)).2.1
       req hskip (handleRequest_fingerprint_recorded en ext st req)])⟩
  by_cases hchk : checkProcessed st.processed
      (hashRequest req.method req.paramsRaw) = true
  · rw [handleRequest_cached en ext st req hskip hchk] at herr
    cases herr
  · have hchk' : checkProcessed st.processed
        (hashRequest req.method req.paramsRaw) = false := by
      simpa using hchk
    have hre := handleRequest_route_eq en ext st req (by simp [hskip, hchk'])
    rcases hro : routeRequest en ext st req with ⟨ev, st1, fx⟩
    have hp : st1.processed = st.processed := by
      have h2 := routeRequest_processed en ext st req
      rw [hro] at h2
      exact h2
    rw [hro] at hre
    cases ev with
    | ok v =>
      rw [hre] at herr
      cases herr
    | error e' =>
      rw [hre]
      simp only [markProcessed, hp]
      exact insertProcessedLog_status st.processed
        ⟨hashRequest req.method req.paramsRaw, reqIDString req.id, req.method,
         "failed", "", 0⟩ hchk'

/-- Witness for `C10_failedRequestReplayCached`: an unknown method gets
`-32601`, is recorded as failed, and its resubmission replays from the
cache. -/
theorem C10_failedRequestReplayCached_witness :
    processedStatus
      (handleRequest enAccepting extTrivial stEmpty
        (some ⟨some (.jstr "a"), "no/such/method", "rawC", none⟩)).2.1.processed
      (hashRequest "no/such/method" "rawC") = some "failed" ∧
    (handleRequest enAccepting extTrivial
        (handleRequest enAccepting extTrivial stEmpty
          (some ⟨some (.jstr "a"), "no/such/method", "rawC", none⟩)).2.1
        (some ⟨some (.jstr "a"), "no/such/method", "rawC", none⟩)).1 =
      ⟨some (.jstr "a"), some cachedReplay, none⟩ ∧
    (handleRequest enAccepting extTrivial
        (handleRequest enAccepting extTrivial stEmpty
          (some ⟨some (.jstr "a"), "no/such/method", "rawC", none⟩)).2.1
        (some ⟨some (.jstr "a"), "no/such/method", "rawC", none⟩)).2.2 = [] :=
  C10_failedRequestReplayCached enAccepting extTrivial stEmpty
    ⟨some (.jstr "a"), "no/such/method", "rawC", none⟩
    ⟨-32601, "Method not found", none⟩ (by decide) rfl

end Holow
